import Mathlib

/-!
Verification of the dust-emission fitting core of dustysn (src/dustysn/model.py).

Shallow embedding conventions:
* Python floats are modelled by real numbers; numpy arrays by lists of reals.
* A raised exception (ValueError, IndexError, numpy shape error, an unpacking
  failure) is modelled by Option.none of the embedded function.
* The IEEE value -inf, which the likelihood and prior use as a sentinel for
  "impossible", is modelled by the bottom element of EReal; finite values are
  coerced reals.
* The astropy unit bookkeeping is modelled by explicit unit tags (LumUnit,
  FluxUnit) together with the corresponding cgs conversion factors; the
  blackbody model is the Planck law in cgs units, as evaluated by
  astropy.modeling.models.BlackBody.
* External randomness (numpy RNG draws) is passed in as explicit data: the
  initial-position assembly receives the one batch of uniform draws the code
  makes, and the sigma-clipping repair receives an index-selection stream and
  a standard-normal noise stream.
* The filter-integration path (obs_wave_filters not None) calls helpers from
  dustysn.utils, which is outside the verified sources; all claims below are
  about the direct-evaluation path (obs_wave_filters = None), which is the
  path the cited code lines implement, so the embedding omits the filter
  arguments.
-/

namespace Dustysn

open scoped Real

/-! ### Physical constants (cgs), as used by astropy -/

/-- Planck constant in erg s. -/
def h_planck : ℝ := 6.62607015e-27

/-- Speed of light in cm / s. -/
def c_cgs : ℝ := 2.99792458e10

/-- Speed of light in Angstrom / s. -/
def c_AA : ℝ := 2.99792458e18

/-- Boltzmann constant in erg / K. -/
def k_B : ℝ := 1.380649e-16

/-- Solar mass in grams. -/
def Msun_g : ℝ := 1.988409870698051e33

/-- One Jansky in erg / s / cm^2 / Hz. -/
def Jy_cgs : ℝ := 1e-23

/-- Conversion factor from micron to cm. -/
def micron_cm : ℝ := 1e-4

/-- Conversion factor from micron to Angstrom. -/
def micron_AA : ℝ := 1e4

/-! ### Unit tags for the astropy Quantity bookkeeping -/

/-- Unit family of a luminosity array: erg/s/Hz (per unit frequency) or
erg/s/AA (per unit wavelength). -/
inductive LumUnit where
  | perHz : LumUnit
  | perAA : LumUnit
deriving DecidableEq

/-- Requested output units of calc_flux: Jy, erg/s/cm^2/Hz, or erg/s/cm^2/AA. -/
inductive FluxUnit where
  | Jy : FluxUnit
  | nu : FluxUnit
  | lam : FluxUnit
deriving DecidableEq

/-! ### PhysicalModel: calc_luminosity, calc_flux, calc_model_flux, model_flux -/

/-- Planck spectral radiance B_nu(T) in erg / s / cm^2 / sr / Hz at frequency
nu (Hz) for temperature T (K): (2 h nu^3 / c^2) / (exp(h nu / (k_B T)) - 1).
This is what astropy.modeling.models.BlackBody evaluates. -/
noncomputable def planck_nu (temperature nu : ℝ) : ℝ :=
  (2 * h_planck * nu ^ 3 / c_cgs ^ 2) /
    (Real.exp (h_planck * nu / (k_B * temperature)) - 1)

/-- Blackbody radiance at a wavelength given in micron (the code passes
rest-frame wavelengths in micron to the BlackBody model, which converts to
frequency). -/
noncomputable def bb_radiance (temperature lam_micron : ℝ) : ℝ :=
  planck_nu temperature (c_cgs / (lam_micron * micron_cm))

/-- Embedding of calc_luminosity (model.py lines 34-93) on its output_units =
'nu' path, the only path exercised by calc_model_flux.  Raises (none) when
rest_wave and kappa_interp have different lengths; otherwise the luminosity is
dust_mass * kappa * B_nu * 4 pi in erg/s/Hz, with the dust mass converted from
solar masses to grams. -/
noncomputable def calc_luminosity (rest_wave kappa_interp : List ℝ)
    (dust_mass temperature : ℝ) : Option (List ℝ) :=
  if rest_wave.length = kappa_interp.length then
    some (List.zipWith
      (fun lam kap => dust_mass * Msun_g * kap * bb_radiance temperature lam * (4 * Real.pi))
      rest_wave kappa_interp)
  else
    none

/-- Embedding of calc_flux (model.py lines 96-152).  The incoming luminosity
carries a unit tag; per the code, a luminosity per unit frequency is divided by
4 pi d^2 and multiplied by (1 + z), while a luminosity per unit wavelength is
divided by 4 pi d^2 and divided by (1 + z).  The result is then converted to
the requested output units using the spectral-density equivalency at the
observer-frame wavelength obs_wave = rest_wave * (1 + z), exactly as the
astropy .to(...) calls do in cgs. -/
noncomputable def calc_flux (rest_wave luminosity : List ℝ) (lunit : LumUnit)
    (distance redshift : ℝ) (ounit : FluxUnit) : List ℝ :=
  let flux_in : List ℝ :=
    match lunit with
    | LumUnit.perHz =>
        luminosity.map (fun L => L / (4 * Real.pi * distance ^ 2) * (1 + redshift))
    | LumUnit.perAA =>
        luminosity.map (fun L => L / (4 * Real.pi * distance ^ 2) / (1 + redshift))
  let obs_wave : List ℝ := rest_wave.map (fun lam => lam * (1 + redshift))
  match lunit, ounit with
  | LumUnit.perHz, FluxUnit.Jy => flux_in.map (fun f => f / Jy_cgs)
  | LumUnit.perHz, FluxUnit.nu => flux_in
  | LumUnit.perHz, FluxUnit.lam =>
      List.zipWith (fun f lamObs => f * c_AA / (lamObs * micron_AA) ^ 2) flux_in obs_wave
  | LumUnit.perAA, FluxUnit.Jy =>
      List.zipWith (fun f lamObs => f * (lamObs * micron_AA) ^ 2 / c_AA / Jy_cgs) flux_in obs_wave
  | LumUnit.perAA, FluxUnit.nu =>
      List.zipWith (fun f lamObs => f * (lamObs * micron_AA) ^ 2 / c_AA) flux_in obs_wave
  | LumUnit.perAA, FluxUnit.lam => flux_in

/-- Embedding of calc_model_flux (model.py lines 155-213) on the path where
kappa_interp and distance are supplied by the caller (model_flux always
supplies both, so the import_coefficients / calc_distance branches of the
source are dead on this path).  Computes the rest-frame wavelengths, the
luminosity in erg/s/Hz, and the flux in Jy. -/
noncomputable def calc_model_flux (obs_wave : List ℝ)
    (dust_mass temperature redshift distance : ℝ) (kappa_interp : List ℝ) :
    Option (List ℝ) :=
  let rest_wave := obs_wave.map (fun w => w / (1 + redshift))
  (calc_luminosity rest_wave kappa_interp dust_mass temperature).map
    (fun luminosity => calc_flux rest_wave luminosity LumUnit.perHz distance redshift FluxUnit.Jy)

/-- Embedding of model_flux (model.py lines 216-281) on the
obs_wave_filters = None path.  theta is the flat parameter list; a tuple
unpacking failure (wrong arity) or an unsupported n_components raises. -/
noncomputable def model_flux (theta : List ℝ) (obs_wave kappa_interp : List ℝ)
    (redshift distance : ℝ) (n_components : ℕ) : Option (List ℝ) :=
  if n_components = 1 then
    match theta with
    | [log_dust_mass_cold, temp_cold] =>
        calc_model_flux obs_wave ((10 : ℝ) ^ log_dust_mass_cold) temp_cold
          redshift distance kappa_interp
    | _ => none
  else if n_components = 2 then
    match theta with
    | [log_dust_mass_cold, temp_cold, log_dust_mass_hot, temp_hot] => do
        let flux1 ← calc_model_flux obs_wave ((10 : ℝ) ^ log_dust_mass_cold) temp_cold
          redshift distance kappa_interp
        let flux2 ← calc_model_flux obs_wave ((10 : ℝ) ^ log_dust_mass_hot) temp_hot
          redshift distance kappa_interp
        pure (List.zipWith (fun a b => a + b) flux1 flux2)
    | _ => none
  else
    none

/-! ### CensoredLikelihood: log_likelihood (model.py lines 284-348) -/

/-- The error function as computed by scipy.special.erf:
erf x = (2 / sqrt pi) * integral of exp(-t^2) for t from 0 to x. -/
noncomputable def erf (x : ℝ) : ℝ :=
  2 / Real.sqrt Real.pi * ∫ t in (0 : ℝ)..x, Real.exp (-t ^ 2)

/-- The expression 0.5 * (1 + erf(z / sqrt 2)) from model.py line 344: the
standard normal cumulative distribution function expressed through the error
function. -/
noncomputable def std_normal_cdf (z : ℝ) : ℝ :=
  0.5 * (1 + erf (z / Real.sqrt 2))

/-- Contribution of one upper limit given its computed probability, from
model.py line 346: log(prob) when prob is positive, and -inf (bottom)
otherwise, instead of a math-domain error. -/
noncomputable def limit_prob_term (prob : ℝ) : EReal :=
  if 0 < prob then ((Real.log prob : ℝ) : EReal) else ⊥

/-- One observed point paired with its model prediction: observed flux, model
flux, flux uncertainty, and the upper-limit flag. -/
structure ObsPt where
  flux : ℝ
  model : ℝ
  err : ℝ
  limit : Bool

/-- Pair up the parallel arrays obs_flux, flux_model, obs_flux_err,
obs_limits, mirroring the aligned boolean-mask indexing of the source. -/
def zipObs : List ℝ → List ℝ → List ℝ → List Bool → List ObsPt
  | f :: fs, m :: ms, e :: es, l :: ls => ⟨f, m, e, l⟩ :: zipObs fs ms es ls
  | _, _, _, _ => []

/-- Gaussian term over the detections (model.py lines 326-333): zero when no
point is a detection, else -0.5 * sum of weight * error^2 minus the
normalization term 0.5 * sum of log(2 pi sigma^2), with weight = 1/sigma^2 and
error = observed - model. -/
noncomputable def detection_term (pts : List ObsPt) : ℝ :=
  let dets := pts.filter (fun p => ! p.limit)
  if dets.isEmpty then 0
  else
    -(0.5 * ((dets.map (fun p => 1 / p.err ^ 2 * (p.flux - p.model) ^ 2)).sum))
      - 0.5 * ((dets.map (fun p => Real.log (2 * Real.pi * p.err ^ 2))).sum)

/-- Upper-limit term (model.py lines 336-346): zero when no point is an upper
limit, else for each limit the model is z = (model - observed)/sigma sigmas
from the limit, the probability is the standard normal CDF of z, and the log
of that probability (or -inf when it is not positive) is accumulated. -/
noncomputable def limit_sum_term (pts : List ObsPt) : EReal :=
  let lims := pts.filter (fun p => p.limit)
  if lims.isEmpty then 0
  else (lims.map (fun p => limit_prob_term (std_normal_cdf ((p.model - p.flux) / p.err)))).sum

/-- Embedding of log_likelihood (model.py lines 284-348) on the
obs_wave_filters = None path.  A numpy shape mismatch between the observation
arrays, or a failure inside model_flux, raises (none); otherwise the result is
the detection term plus the upper-limit term, in EReal so that the -inf
sentinel of the source is the bottom element. -/
noncomputable def log_likelihood (theta : List ℝ)
    (obs_wave obs_flux obs_flux_err : List ℝ) (obs_limits : List Bool)
    (kappa_interp : List ℝ) (redshift distance : ℝ) (n_components : ℕ) :
    Option EReal :=
  if obs_flux.length = obs_wave.length ∧ obs_flux_err.length = obs_wave.length ∧
      obs_limits.length = obs_wave.length then
    (model_flux theta obs_wave kappa_interp redshift distance n_components).map
      (fun flux_model =>
        let pts := zipObs obs_flux flux_model obs_flux_err obs_limits
        ((detection_term pts : ℝ) : EReal) + limit_sum_term pts)
  else
    none

/-- Pure Gaussian log-likelihood over a list of points, written from the
specification formula: -1/2 sum ((obs - model)/sigma)^2 - 1/2 sum
log(2 pi sigma^2). -/
noncomputable def gaussian_log_like (pts : List ObsPt) : ℝ :=
  -(0.5 * ((pts.map (fun p => ((p.flux - p.model) / p.err) ^ 2)).sum))
    - 0.5 * ((pts.map (fun p => Real.log (2 * Real.pi * p.err ^ 2))).sum)

/-- Pure upper-limit log-likelihood over a list of points, written from the
specification: each point contributes log of the standard normal CDF of
(model - obs)/sigma, with a zero probability mapped to -inf. -/
noncomputable def upper_limit_log_like (pts : List ObsPt) : EReal :=
  (pts.map (fun p => limit_prob_term (std_normal_cdf ((p.model - p.flux) / p.err)))).sum

/-! ### PriorModel: the priors table and log_prior (model.py lines 26-31 and
351-396) -/

/-- Prior bounds for log_dust_mass_cold, from the module-level priors dict. -/
def priors_log_dust_mass_cold : ℝ × ℝ := (-6, 1)

/-- Prior bounds for temp_cold. -/
def priors_temp_cold : ℝ × ℝ := (20, 2000)

/-- Prior bounds for log_dust_mass_hot. -/
def priors_log_dust_mass_hot : ℝ × ℝ := (-8, 1)

/-- Prior bounds for temperature_hot. -/
def priors_temperature_hot : ℝ × ℝ := (20, 3000)

/-- Embedding of log_prior (model.py lines 351-396).  All bound checks are
strict, exactly as in the source; the two-component case additionally requires
temperature_hot > temp_cold.  Wrong arity of theta or an unsupported
n_components raises (none). -/
noncomputable def log_prior (theta : List ℝ) (n_components : ℕ) : Option EReal :=
  if n_components = 1 then
    match theta with
    | [log_dust_mass_cold, temp_cold] =>
        if (priors_log_dust_mass_cold.1 < log_dust_mass_cold ∧
              log_dust_mass_cold < priors_log_dust_mass_cold.2) ∧
            (priors_temp_cold.1 < temp_cold ∧ temp_cold < priors_temp_cold.2) then
          some 0
        else
          some ⊥
    | _ => none
  else if n_components = 2 then
    match theta with
    | [log_dust_mass_cold, temp_cold, log_dust_mass_hot, temperature_hot] =>
        if (priors_log_dust_mass_cold.1 < log_dust_mass_cold ∧
              log_dust_mass_cold < priors_log_dust_mass_cold.2) ∧
            (priors_temp_cold.1 < temp_cold ∧ temp_cold < priors_temp_cold.2) ∧
            (priors_log_dust_mass_hot.1 < log_dust_mass_hot ∧
              log_dust_mass_hot < priors_log_dust_mass_hot.2) ∧
            (priors_temperature_hot.1 < temperature_hot ∧
              temperature_hot < priors_temperature_hot.2) then
          if temperature_hot > temp_cold then some 0 else some ⊥
        else
          some ⊥
    | _ => none
  else
    none

/-! ### PosteriorEvaluator: log_probability (model.py lines 399-441) -/

/-- Embedding of log_probability.  The prior is evaluated first; when it is
not finite (np.isfinite is false, i.e. the EReal value is bottom or top) the
function returns -inf immediately, without evaluating the likelihood at all,
so a likelihood that would raise or be non-finite is never reached.  When the
prior is finite the result is prior + likelihood. -/
noncomputable def log_probability (theta : List ℝ)
    (obs_wave obs_flux obs_flux_err : List ℝ) (obs_limits : List Bool)
    (kappa_interp : List ℝ) (redshift distance : ℝ) (n_components : ℕ) :
    Option EReal :=
  match log_prior theta n_components with
  | none => none
  | some lp =>
      if lp = ⊥ ∨ lp = ⊤ then some ⊥
      else
        (log_likelihood theta obs_wave obs_flux obs_flux_err obs_limits
          kappa_interp redshift distance n_components).map (fun ll => lp + ll)

/-! ### Numpy helpers: sort, mean, std, median, percentile -/

/-- Insert a value into an already sorted list of reals. -/
noncomputable def insert_sorted (x : ℝ) : List ℝ → List ℝ
  | [] => [x]
  | y :: ys => if x ≤ y then x :: y :: ys else y :: insert_sorted x ys

/-- Ascending sort of a list of reals (insertion sort), modelling np.sort. -/
noncomputable def np_sort (l : List ℝ) : List ℝ :=
  l.foldr insert_sorted []

/-- Arithmetic mean, modelling np.mean. -/
noncomputable def np_mean (l : List ℝ) : ℝ :=
  l.sum / l.length

/-- Population standard deviation, modelling np.std. -/
noncomputable def np_std (l : List ℝ) : ℝ :=
  Real.sqrt (((l.map (fun x => (x - np_mean l) ^ 2)).sum) / l.length)

/-- Median, modelling np.median: middle element of the sorted data for odd
length, mean of the two middle elements for even length. -/
noncomputable def np_median (l : List ℝ) : ℝ :=
  let s := np_sort l
  if l.length % 2 = 1 then s.getD (l.length / 2) 0
  else (s.getD (l.length / 2 - 1) 0 + s.getD (l.length / 2) 0) / 2

/-- Percentile with linear interpolation, modelling np.percentile: with the
data sorted ascending and h = (n - 1) * q / 100, the result is
s[floor h] + (h - floor h) * (s[ceil h] - s[floor h]). -/
noncomputable def np_percentile (l : List ℝ) (q : ℝ) : ℝ :=
  let s := np_sort l
  let h : ℝ := ((s.length : ℝ) - 1) * (q / 100)
  let lo := s.getD (⌊h⌋).toNat 0
  let hi := s.getD (⌈h⌉).toNat 0
  lo + (h - ⌊h⌋) * (hi - lo)

/-! ### ConvergenceController, INIT phase: assembly of initial walker
positions inside fit_dust_model (model.py lines 894-908) -/

/-- The boolean np.isfinite(log_prior(theta)) used to mask the drawn
positions; a raising log_prior is handled separately by the caller. -/
noncomputable def prior_finite_b (theta : List ℝ) (n_components : ℕ) : Bool :=
  match log_prior theta n_components with
  | some lp => decide (lp ≠ ⊥ ∧ lp ≠ ⊤)
  | none => false

/-- The while-loop of the initial-position assembly: as long as pos_out is
shorter than n_walkers, append the finite-prior subset of the one batch of
drawn positions pos_in.  The loop re-evaluates log_prior on every element of
pos_in each iteration, so a raising log_prior propagates (none); a filtered
batch that is empty makes the source loop spin forever, modelled by fuel
exhaustion (none). -/
noncomputable def init_loop (pos_in : List (List ℝ)) (n_components n_walkers : ℕ) :
    ℕ → List (List ℝ) → Option (List (List ℝ))
  | 0, _ => none
  | fuel + 1, pos_out =>
      if pos_out.length < n_walkers then
        if pos_in.any (fun theta => (log_prior theta n_components).isNone) then none
        else
          init_loop pos_in n_components n_walkers fuel
            (pos_out ++ pos_in.filter (fun theta => prior_finite_b theta n_components))
      else
        some pos_out

/-- Embedding of the initial-position assembly of fit_dust_model (model.py
lines 898-908), as a function of the one batch pos_in of uniform draws made by
create_prior.  pos_out starts as the first drawn position (pos_in[0:1]),
unfiltered; the loop appends the finite-prior subset of pos_in until at least
n_walkers positions are assembled; finally, when the assembled length differs
from n_walkers the list is cropped to pos_out[1:n_walkers+1], otherwise
pos_out is used as is.  n_walkers + 1 units of fuel suffice for any
terminating run because each loop iteration appends at least one position. -/
noncomputable def assemble_initial_positions (pos_in : List (List ℝ))
    (n_components n_walkers : ℕ) : Option (List (List ℝ)) :=
  (init_loop pos_in n_components n_walkers (n_walkers + 1) (pos_in.take 1)).map
    (fun pos_out =>
      if pos_out.length ≠ n_walkers then (pos_out.drop 1).take n_walkers else pos_out)

/-! ### ConvergenceController, CHECK/REPAIR phase: the sigma-clipping step of
mcmc_with_sigma_clipping (model.py lines 536-577).

The positions fed to this step are real vectors, so the preceding non-finite
replacement block (lines 524-534) is the identity here: a list of reals has no
NaN or infinity, hence invalid_mask is all false.  Randomness is passed in as
a selection stream pick (np.random.choice over the valid indices) and a
standard-normal noise stream. -/

/-- Number of parameter dimensions of the ensemble (pos.shape[1]). -/
def clip_ndim (last_pos : List (List ℝ)) : ℕ :=
  (last_pos.headD []).length

/-- Column d of the ensemble: the d-th coordinate of every walker. -/
def clip_column (last_pos : List (List ℝ)) (d : ℕ) : List ℝ :=
  last_pos.map (fun w => w.getD d 0)

/-- Per-dimension medians of the ensemble (model.py line 537). -/
noncomputable def clip_medians (last_pos : List (List ℝ)) : List ℝ :=
  (List.range (clip_ndim last_pos)).map (fun d => np_median (clip_column last_pos d))

/-- Per-dimension standard deviations floored at 1e-10 (model.py lines
538-541). -/
noncomputable def clip_stds (last_pos : List (List ℝ)) : List ℝ :=
  (List.range (clip_ndim last_pos)).map
    (fun d => max (np_std (clip_column last_pos d)) 1e-10)

/-- Whether every coordinate of walker w deviates from the per-dimension
median by strictly less than sigma_clip standard deviations (model.py line
544). -/
noncomputable def walker_within_clip (w medians stds : List ℝ) (sigma_clip : ℝ) : Bool :=
  (List.range medians.length).all
    (fun d => decide (|w.getD d 0 - medians.getD d 0| < sigma_clip * stds.getD d 0))

/-- Indices of the walkers inside the sigma_clip range (model.py line 545). -/
noncomputable def clip_valid_indices (last_pos : List (List ℝ)) (sigma_clip : ℝ) :
    List ℕ :=
  (List.range last_pos.length).filter
    (fun i => walker_within_clip (last_pos.getD i []) (clip_medians last_pos)
      (clip_stds last_pos) sigma_clip)

/-- Embedding of the CHECK/REPAIR step (model.py lines 536-577) that produces
the positions handed to the next MCMC run.  When some walkers are outside the
clip range, each such walker is replaced by a uniformly chosen valid walker
plus per-dimension Gaussian noise of scale std/sigma_clip; when every walker
is valid the ensemble is carried forward unchanged.  When the set of valid
indices is empty the very first np.random.choice(valid_indices) raises
(none). -/
noncomputable def sigma_clip_step (last_pos : List (List ℝ)) (sigma_clip : ℝ)
    (pick : ℕ → ℕ) (noise : ℕ → ℕ → ℝ) : Option (List (List ℝ)) :=
  let valid := clip_valid_indices last_pos sigma_clip
  if valid.length < last_pos.length then
    if valid.isEmpty then none
    else
      some ((List.range last_pos.length).map (fun i =>
        if i ∈ valid then last_pos.getD i []
        else
          let v := valid.getD (pick i % valid.length) 0
          (List.range (clip_ndim last_pos)).map (fun d =>
            (last_pos.getD v []).getD d 0 +
              noise i d * ((clip_stds last_pos).getD d 0 / sigma_clip))))
  else
    some last_pos

/-! ### ResultSummarizer (model.py lines 938-976) -/

/-- Concatenation of a list of lists, modelling the reshape((-1, n_dim)) of
the walker-major chain slice. -/
def concat_samples : List (List (List ℝ)) → List (List ℝ)
  | [] => []
  | w :: ws => w ++ concat_samples ws

/-- Python tail slice a[-k:] on a list: for k = 0 this is the whole list
(a[-0:] is a[0:]), otherwise the last k elements (all of them when k exceeds
the length). -/
def python_tail_slice (k : ℕ) (l : List (List ℝ)) : List (List ℝ) :=
  if k = 0 then l else l.drop (l.length - k)

/-- The retained flattened samples (model.py lines 939-942): with repeats > 1
the last n_steps steps of every walker, otherwise the last
int(n_steps * (1 - burn_in)) steps, flattened walker-major. -/
noncomputable def samples_crop (chain : List (List (List ℝ)))
    (repeats n_steps : ℕ) (burn_in : ℝ) : List (List ℝ) :=
  if 1 < repeats then
    concat_samples (chain.map (python_tail_slice n_steps))
  else
    concat_samples (chain.map
      (python_tail_slice (⌊(n_steps : ℝ) * (1 - burn_in)⌋).toNat))

/-- The (median, +1 sigma, -1 sigma) triple computed by the source (model.py
lines 947-948): v = np.percentile(samples, [15.87, 50, 84.13]) followed by
(v[1], v[2] - v[1], v[1] - v[0]). -/
noncomputable def mcmc_triple (samples : List ℝ) : ℝ × ℝ × ℝ :=
  let v := [np_percentile samples 15.87, np_percentile samples 50,
    np_percentile samples 84.13]
  (v.getD 1 0, v.getD 2 0 - v.getD 1 0, v.getD 1 0 - v.getD 0 0)

/-- Column i of the retained samples. -/
def sample_column (samples : List (List ℝ)) (i : ℕ) : List ℝ :=
  samples.map (fun v => v.getD i 0)

/-- The ordered list of result triples built from the retained samples
(model.py lines 946-976): the per-parameter triples in parameter order
followed by the total-dust-mass triple, where the total dust mass samples are
10 ** log_mass for one component and 10 ** log_mass_cold + 10 ** log_mass_hot
for two.  The source binds no results for other component counts. -/
noncomputable def fit_results (samples : List (List ℝ)) (n_components : ℕ) :
    Option (List (ℝ × ℝ × ℝ)) :=
  if n_components = 1 then
    some [mcmc_triple (sample_column samples 0),
      mcmc_triple (sample_column samples 1),
      mcmc_triple (samples.map (fun v => (10 : ℝ) ^ v.getD 0 0))]
  else if n_components = 2 then
    some [mcmc_triple (sample_column samples 0),
      mcmc_triple (sample_column samples 1),
      mcmc_triple (sample_column samples 2),
      mcmc_triple (sample_column samples 3),
      mcmc_triple (samples.map
        (fun v => (10 : ℝ) ^ v.getD 0 0 + (10 : ℝ) ^ v.getD 2 0))]
  else
    none

/-- The summary of fit_dust_model as a function of the recorded chain
(walker-major, step, dimension): crop per the burn-in policy, then summarize
(model.py lines 938-976). -/
noncomputable def fit_summary (chain : List (List (List ℝ)))
    (repeats n_steps : ℕ) (burn_in : ℝ) (n_components : ℕ) :
    Option (List (ℝ × ℝ × ℝ)) :=
  fit_results (samples_crop chain repeats n_steps burn_in) n_components

/-! ### ResultSummarizer, specification side.  These definitions follow the
words of the specification (section 4.7) and of claim C9, to be compared with
the code-side fit_summary above. -/

/-- Samples retained according to the specification: with repeats > 1 only the
final run cycle, i.e. the last n_steps steps of each walker; otherwise the
first burn_in fraction of the single run is discarded, i.e. each walker keeps
its last floor(n_steps * (1 - burn_in)) steps, dropping the leading ones. -/
noncomputable def spec_retained (chain : List (List (List ℝ)))
    (repeats n_steps : ℕ) (burn_in : ℝ) : List (List ℝ) :=
  if 1 < repeats then
    concat_samples (chain.map (fun w => w.drop (w.length - n_steps)))
  else
    concat_samples (chain.map
      (fun w => w.drop (w.length - (⌊(n_steps : ℝ) * (1 - burn_in)⌋).toNat)))

/-- A reported quantity according to the specification: the triple
(p50, p84.13 - p50, p50 - p15.87) of the retained flattened samples. -/
noncomputable def spec_report (samples : List ℝ) : ℝ × ℝ × ℝ :=
  (np_percentile samples 50,
    np_percentile samples 84.13 - np_percentile samples 50,
    np_percentile samples 50 - np_percentile samples 15.87)

/-- The full summary according to the specification: each parameter, then the
total dust mass, defined in linear space as the sum of 10 ^ log_mass over the
components, all reported through spec_report on the retained samples. -/
noncomputable def spec_summary (chain : List (List (List ℝ)))
    (repeats n_steps : ℕ) (burn_in : ℝ) (n_components : ℕ) :
    Option (List (ℝ × ℝ × ℝ)) :=
  let retained := spec_retained chain repeats n_steps burn_in
  if n_components = 1 then
    some [spec_report (sample_column retained 0),
      spec_report (sample_column retained 1),
      spec_report (retained.map (fun v => (10 : ℝ) ^ v.getD 0 0))]
  else if n_components = 2 then
    some [spec_report (sample_column retained 0),
      spec_report (sample_column retained 1),
      spec_report (sample_column retained 2),
      spec_report (sample_column retained 3),
      spec_report (retained.map
        (fun v => (10 : ℝ) ^ v.getD 0 0 + (10 : ℝ) ^ v.getD 2 0))]
  else
    none

/-! ### Concrete demonstration value used by witnesses -/

/-- The model flux of the one-component model at theta = (0, 100) on the
single-point grid wave = [10], kappa = [1], redshift 0, distance 1. -/
noncomputable def flux_demo : ℝ :=
  ((model_flux [0, 100] [10] [1] 0 1 1).getD []).headD 0

/-! ### Helper lemmas about the error function and the normal CDF -/

/-- The Gaussian integrand is continuous. -/
lemma continuous_gauss_kernel : Continuous fun t : ℝ => Real.exp (-t ^ 2) :=
  Real.continuous_exp.comp ((continuous_pow 2).neg)

/-- erf vanishes at zero. -/
lemma erf_zero : erf 0 = 0 := by
  unfold erf
  rw [intervalIntegral.integral_same, mul_zero]

/-- erf is strictly increasing. -/
lemma erf_lt_erf {a b : ℝ} (h : a < b) : erf a < erf b := by
  unfold erf
  have h0a : IntervalIntegrable (fun t : ℝ => Real.exp (-t ^ 2)) MeasureTheory.volume 0 a :=
    continuous_gauss_kernel.intervalIntegrable 0 a
  have h0b : IntervalIntegrable (fun t : ℝ => Real.exp (-t ^ 2)) MeasureTheory.volume 0 b :=
    continuous_gauss_kernel.intervalIntegrable 0 b
  have hab : IntervalIntegrable (fun t : ℝ => Real.exp (-t ^ 2)) MeasureTheory.volume a b :=
    continuous_gauss_kernel.intervalIntegrable a b
  have hpos : 0 < ∫ t in a..b, Real.exp (-t ^ 2) :=
    intervalIntegral.intervalIntegral_pos_of_pos_on hab
      (fun x _ => Real.exp_pos _) h
  have hsub : ((∫ t in (0 : ℝ)..b, Real.exp (-t ^ 2)) -
      ∫ t in (0 : ℝ)..a, Real.exp (-t ^ 2)) = ∫ t in a..b, Real.exp (-t ^ 2) :=
    intervalIntegral.integral_interval_sub_left h0b h0a
  have hcoef : 0 < 2 / Real.sqrt Real.pi :=
    div_pos two_pos (Real.sqrt_pos.mpr Real.pi_pos)
  have hlt : (∫ t in (0 : ℝ)..a, Real.exp (-t ^ 2)) <
      ∫ t in (0 : ℝ)..b, Real.exp (-t ^ 2) := by linarith
  exact mul_lt_mul_of_pos_left hlt hcoef

/-- The embedded normal CDF at zero is one half. -/
lemma std_normal_cdf_zero : std_normal_cdf 0 = 1 / 2 := by
  unfold std_normal_cdf
  rw [zero_div, erf_zero]
  norm_num

/-- The embedded normal CDF at one exceeds one half. -/
lemma half_lt_std_normal_cdf_one : 1 / 2 < std_normal_cdf 1 := by
  have hx : (0 : ℝ) < 1 / Real.sqrt 2 :=
    div_pos one_pos (Real.sqrt_pos.mpr two_pos)
  have h := erf_lt_erf hx
  rw [erf_zero] at h
  unfold std_normal_cdf
  nlinarith [h]

/-! ### Helper lemmas about the embedded likelihood -/

/-- On the demonstration input, model_flux succeeds and returns the singleton
list holding flux_demo. -/
lemma model_flux_demo : model_flux [0, 100] [10] [1] 0 1 1 = some [flux_demo] := rfl

/-- On the demonstration input, the one-component prior is zero. -/
lemma log_prior_demo : log_prior [0, 100] 1 = some 0 := by
  have e1 : log_prior [(0 : ℝ), 100] 1 =
      if ((-6 : ℝ) < 0 ∧ (0 : ℝ) < 1) ∧ ((20 : ℝ) < 100 ∧ (100 : ℝ) < 2000) then
        some 0
      else some ⊥ := rfl
  rw [e1, if_pos (by norm_num)]

/-- Unfolding of log_likelihood when the observation arrays have matching
lengths and the model evaluation succeeds. -/
lemma log_likelihood_eq (theta : List ℝ)
    (obs_wave obs_flux obs_flux_err : List ℝ) (obs_limits : List Bool)
    (kappa_interp : List ℝ) (redshift distance : ℝ) (n_components : ℕ)
    (fm : List ℝ)
    (hf : obs_flux.length = obs_wave.length)
    (he : obs_flux_err.length = obs_wave.length)
    (hl : obs_limits.length = obs_wave.length)
    (hm : model_flux theta obs_wave kappa_interp redshift distance n_components = some fm) :
    log_likelihood theta obs_wave obs_flux obs_flux_err obs_limits kappa_interp
        redshift distance n_components =
      some (((detection_term (zipObs obs_flux fm obs_flux_err obs_limits) : ℝ) : EReal) +
        limit_sum_term (zipObs obs_flux fm obs_flux_err obs_limits)) := by
  unfold log_likelihood
  rw [if_pos ⟨hf, he, hl⟩, hm]
  rfl

/-- Every point produced by zipObs takes its limit flag from the limits
list. -/
lemma zipObs_limit_mem (f m e : List ℝ) (l : List Bool) (p : ObsPt)
    (hp : p ∈ zipObs f m e l) : p.limit ∈ l := by
  induction f generalizing m e l with
  | nil => simp [zipObs] at hp
  | cons a fs ih =>
    cases m with
    | nil => simp [zipObs] at hp
    | cons b ms =>
      cases e with
      | nil => simp [zipObs] at hp
      | cons c es =>
        cases l with
        | nil => simp [zipObs] at hp
        | cons d0 ls =>
          have hz : zipObs (a :: fs) (b :: ms) (c :: es) (d0 :: ls) =
              ⟨a, b, c, d0⟩ :: zipObs fs ms es ls := rfl
          rw [hz, List.mem_cons] at hp
          rcases hp with hp | hp
          · rw [hp]
            exact List.mem_cons_self d0 ls
          · exact List.mem_cons_of_mem d0 (ih ms es ls hp)

/-! ### Claim theorems -/

/-- C1, counterexample.  The claim states that calc_flux divides a per-unit-
frequency (erg/s/Hz) luminosity by (1+z).  On the concrete input rest_wave =
[1], luminosity = [1] in erg/s/Hz, distance 1, redshift 1 and cgs per-Hz
output units, the code multiplies by (1+z): it returns
[1 / (4 pi 1^2) * (1+1)], which differs from the claimed
[1 / (4 pi 1^2) / (1+1)]. -/
theorem calc_flux_redshift_direction_cex :
    calc_flux [1] [1] LumUnit.perHz 1 1 FluxUnit.nu =
      [(1 : ℝ) / (4 * Real.pi * 1 ^ 2) * (1 + 1)] ∧
    calc_flux [1] [1] LumUnit.perHz 1 1 FluxUnit.nu ≠
      [(1 : ℝ) / (4 * Real.pi * 1 ^ 2) / (1 + 1)] := by
  have hval : calc_flux [1] [1] LumUnit.perHz 1 1 FluxUnit.nu =
      [(1 : ℝ) / (4 * Real.pi * 1 ^ 2) * (1 + 1)] := rfl
  refine ⟨hval, ?_⟩
  rw [hval]
  intro h
  have h2 : (1 : ℝ) / (4 * Real.pi * 1 ^ 2) * (1 + 1) =
      1 / (4 * Real.pi * 1 ^ 2) / (1 + 1) := by
    simpa only [List.cons.injEq, and_true] using h
  field_simp [Real.pi_ne_zero] at h2
  linarith [Real.pi_pos]

/-- C1, amended.  For every positive redshift and positive luminosity array,
the flux returned by calc_flux equals luminosity / (4 pi distance^2) with the
(1+z) factor applied as a multiplication when the supplied luminosity is per
unit frequency (erg/s/Hz, read back in the same cgs per-frequency units) and
as a division when it is per unit wavelength (erg/s/AA, read back in cgs
per-wavelength units). -/
theorem calc_flux_redshift_direction (rest_wave luminosity : List ℝ)
    (distance redshift : ℝ) (hz : 0 < redshift)
    (hL : ∀ L ∈ luminosity, 0 < L) :
    calc_flux rest_wave luminosity LumUnit.perHz distance redshift FluxUnit.nu =
      luminosity.map (fun L => L / (4 * Real.pi * distance ^ 2) * (1 + redshift)) ∧
    calc_flux rest_wave luminosity LumUnit.perAA distance redshift FluxUnit.lam =
      luminosity.map (fun L => L / (4 * Real.pi * distance ^ 2) / (1 + redshift)) :=
  ⟨rfl, rfl⟩

/-- Witness for C1 (amended) at redshift 1, luminosity [3], distance 5. -/
theorem calc_flux_redshift_direction_witness :
    calc_flux [2] [3] LumUnit.perHz 5 1 FluxUnit.nu =
      [3].map (fun L => L / (4 * Real.pi * 5 ^ 2) * (1 + 1)) :=
  (calc_flux_redshift_direction [2] [3] 5 1 (by norm_num)
    (by
      intro L hmem
      rw [List.mem_singleton] at hmem
      rw [hmem]
      norm_num)).1

/-- C3, counterexample.  The parameter vector (-6, 100, -4, 200) lies in the
closed prior box of the claim (log-mass-cold in [-6,1], temp-cold in
[20,2000], log-mass-hot in [-8,1], temp-hot in [20,3000]) and satisfies the
ordering constraint 100 < 200, yet log_prior returns -inf, not 0, because the
source checks every bound strictly. -/
theorem log_prior_boundary_cex :
    log_prior [-6, 100, -4, 200] 2 = some ⊥ ∧
    (-6 : ℝ) ∈ Set.Icc (-6 : ℝ) 1 ∧ (100 : ℝ) ∈ Set.Icc (20 : ℝ) 2000 ∧
    (-4 : ℝ) ∈ Set.Icc (-8 : ℝ) 1 ∧ (200 : ℝ) ∈ Set.Icc (20 : ℝ) 3000 ∧
    ((100 : ℝ) < 200) ∧ some (⊥ : EReal) ≠ some (0 : EReal) := by
  refine ⟨?_, by norm_num [Set.mem_Icc], by norm_num [Set.mem_Icc],
    by norm_num [Set.mem_Icc], by norm_num [Set.mem_Icc], by norm_num, ?_⟩
  · simp only [log_prior, priors_log_dust_mass_cold, priors_temp_cold,
      priors_log_dust_mass_hot, priors_temperature_hot]
    norm_num
  · simp only [ne_eq, Option.some.injEq]
    exact fun h => EReal.zero_ne_bot h.symm

/-- C3, amended.  With every bound strict (the open prior box), log_prior
returns 0 exactly on parameter vectors strictly inside the box that, in the
two-component case, also satisfy hot temperature above cold temperature, and
-inf exactly on the remaining vectors of the correct arity. -/
theorem log_prior_box_characterization (lmc tc lmh th : ℝ) :
    (log_prior [lmc, tc] 1 = some 0 ↔
      (-6 < lmc ∧ lmc < 1 ∧ 20 < tc ∧ tc < 2000)) ∧
    (log_prior [lmc, tc] 1 = some ⊥ ↔
      ¬ (-6 < lmc ∧ lmc < 1 ∧ 20 < tc ∧ tc < 2000)) ∧
    (log_prior [lmc, tc, lmh, th] 2 = some 0 ↔
      (-6 < lmc ∧ lmc < 1 ∧ 20 < tc ∧ tc < 2000 ∧ -8 < lmh ∧ lmh < 1 ∧
        20 < th ∧ th < 3000 ∧ tc < th)) ∧
    (log_prior [lmc, tc, lmh, th] 2 = some ⊥ ↔
      ¬ (-6 < lmc ∧ lmc < 1 ∧ 20 < tc ∧ tc < 2000 ∧ -8 < lmh ∧ lmh < 1 ∧
        20 < th ∧ th < 3000 ∧ tc < th)) := by
  have hzb : (0 : EReal) ≠ ⊥ := EReal.zero_ne_bot
  have e1 : log_prior [lmc, tc] 1 =
      if (-6 < lmc ∧ lmc < 1) ∧ (20 < tc ∧ tc < 2000) then some 0 else some ⊥ := rfl
  have e2 : log_prior [lmc, tc, lmh, th] 2 =
      if (-6 < lmc ∧ lmc < 1) ∧ (20 < tc ∧ tc < 2000) ∧ (-8 < lmh ∧ lmh < 1) ∧
          (20 < th ∧ th < 3000) then
        (if th > tc then some 0 else some ⊥)
      else some ⊥ := rfl
  refine ⟨?_, ?_, ?_, ?_⟩
  · rw [e1]
    by_cases h : (-6 < lmc ∧ lmc < 1) ∧ (20 < tc ∧ tc < 2000)
    · rw [if_pos h]
      exact iff_of_true rfl (by tauto)
    · rw [if_neg h]
      exact iff_of_false (fun hb => hzb (Option.some_inj.mp hb).symm)
        (fun hx => h (by tauto))
  · rw [e1]
    by_cases h : (-6 < lmc ∧ lmc < 1) ∧ (20 < tc ∧ tc < 2000)
    · rw [if_pos h]
      exact iff_of_false (fun hb => hzb (Option.some_inj.mp hb))
        (fun hn => hn (by tauto))
    · rw [if_neg h]
      exact iff_of_true rfl (fun hx => h (by tauto))
  · rw [e2]
    by_cases h : (-6 < lmc ∧ lmc < 1) ∧ (20 < tc ∧ tc < 2000) ∧ (-8 < lmh ∧ lmh < 1) ∧
        (20 < th ∧ th < 3000)
    · rw [if_pos h]
      by_cases h2 : th > tc
      · rw [if_pos h2]
        exact iff_of_true rfl (by tauto)
      · rw [if_neg h2]
        exact iff_of_false (fun hb => hzb (Option.some_inj.mp hb).symm)
          (fun hx => h2 hx.2.2.2.2.2.2.2.2)
    · rw [if_neg h]
      exact iff_of_false (fun hb => hzb (Option.some_inj.mp hb).symm)
        (fun hx => h (by tauto))
  · rw [e2]
    by_cases h : (-6 < lmc ∧ lmc < 1) ∧ (20 < tc ∧ tc < 2000) ∧ (-8 < lmh ∧ lmh < 1) ∧
        (20 < th ∧ th < 3000)
    · rw [if_pos h]
      by_cases h2 : th > tc
      · rw [if_pos h2]
        exact iff_of_false (fun hb => hzb (Option.some_inj.mp hb))
          (fun hn => hn (by tauto))
      · rw [if_neg h2]
        exact iff_of_true rfl (fun hx => h2 hx.2.2.2.2.2.2.2.2)
    · rw [if_neg h]
      exact iff_of_true rfl (fun hx => h (by tauto))

/-- C2.  The claim states that raising an upper limit's quoted flux threshold
never decreases the log-likelihood.  The code computes z = (model - obs)/sigma
(not (obs - model)/sigma as in Equation 8 of the reference its comment cites),
so raising the limit lowers z and the CDF: on a single upper-limit observation
with unit uncertainty, raising the threshold from model - 1 to model strictly
decreases the log-likelihood from log(CDF 1) to log(CDF 0). -/
theorem log_likelihood_limit_direction_bug (theta : List ℝ) (w κ : List ℝ)
    (z d : ℝ) (n : ℕ) (fm : ℝ) (hw : w.length = 1)
    (hm : model_flux theta w κ z d n = some [fm]) :
    log_likelihood theta w [fm] [1] [true] κ z d n =
      some (limit_prob_term (std_normal_cdf 0)) ∧
    log_likelihood theta w [fm - 1] [1] [true] κ z d n =
      some (limit_prob_term (std_normal_cdf 1)) ∧
    limit_prob_term (std_normal_cdf 0) < limit_prob_term (std_normal_cdf 1) := by
  have hlen : ∀ x : ℝ, ([x] : List ℝ).length = w.length := by
    intro x; rw [hw]; rfl
  have hblen : ([true] : List Bool).length = w.length := by rw [hw]; rfl
  refine ⟨?_, ?_, ?_⟩
  · rw [log_likelihood_eq theta w [fm] [1] [true] κ z d n [fm]
      (hlen fm) (hlen 1) hblen hm]
    have hpts : zipObs [fm] [fm] [1] [true] = [⟨fm, fm, 1, true⟩] := rfl
    rw [hpts]
    have hdet : detection_term [⟨fm, fm, 1, true⟩] = 0 := by
      unfold detection_term
      rfl
    have hlim : limit_sum_term [⟨fm, fm, 1, true⟩] =
        limit_prob_term (std_normal_cdf ((fm - fm) / 1)) := by
      unfold limit_sum_term
      simp [List.filter]
    rw [hdet, hlim]
    simp
  · rw [log_likelihood_eq theta w [fm - 1] [1] [true] κ z d n [fm]
      (hlen (fm - 1)) (hlen 1) hblen hm]
    have hpts : zipObs [fm - 1] [fm] [1] [true] = [⟨fm - 1, fm, 1, true⟩] := rfl
    rw [hpts]
    have hdet : detection_term [⟨fm - 1, fm, 1, true⟩] = 0 := by
      unfold detection_term
      rfl
    have hlim : limit_sum_term [⟨fm - 1, fm, 1, true⟩] =
        limit_prob_term (std_normal_cdf ((fm - (fm - 1)) / 1)) := by
      unfold limit_sum_term
      simp [List.filter]
    rw [hdet, hlim]
    have harg : (fm - (fm - 1)) / 1 = 1 := by ring
    rw [harg]
    simp
  · have h0 : std_normal_cdf 0 = 1 / 2 := std_normal_cdf_zero
    have h1 : 1 / 2 < std_normal_cdf 1 := half_lt_std_normal_cdf_one
    unfold limit_prob_term
    rw [if_pos (by rw [h0]; norm_num), if_pos (by linarith)]
    exact EReal.coe_lt_coe_iff.mpr
      (Real.log_lt_log (by rw [h0]; norm_num) (by rw [h0]; exact h1))

/-- Witness for C2 on the demonstration input. -/
theorem log_likelihood_limit_direction_bug_witness :
    log_likelihood [0, 100] [10] [flux_demo] [1] [true] [1] 0 1 1 =
      some (limit_prob_term (std_normal_cdf 0)) ∧
    limit_prob_term (std_normal_cdf 0) < limit_prob_term (std_normal_cdf 1) :=
  ⟨(log_likelihood_limit_direction_bug [0, 100] [10] [1] 0 1 1 flux_demo
      rfl model_flux_demo).1,
   (log_likelihood_limit_direction_bug [0, 100] [10] [1] 0 1 1 flux_demo
      rfl model_flux_demo).2.2⟩

/-- C5.  Each upper-limit observation contributes the log of the standard
normal CDF of z = (model - obs)/sigma to the log-likelihood, through
limit_prob_term; and a probability that evaluates to exactly zero contributes
-inf (bottom) rather than raising a domain error. -/
theorem log_likelihood_upper_limit_contribution (theta : List ℝ)
    (w f e : List ℝ) (lims : List Bool) (κ : List ℝ) (z d : ℝ) (n : ℕ)
    (fm : List ℝ)
    (hf : f.length = w.length) (he : e.length = w.length)
    (hl : lims.length = w.length)
    (hm : model_flux theta w κ z d n = some fm) :
    log_likelihood theta w f e lims κ z d n =
      some (((detection_term (zipObs f fm e lims) : ℝ) : EReal) +
        (((zipObs f fm e lims).filter (fun p => p.limit)).map
          (fun p => limit_prob_term (std_normal_cdf ((p.model - p.flux) / p.err)))).sum) ∧
    (∀ prob : ℝ, prob = 0 → limit_prob_term prob = ⊥) := by
  constructor
  · rw [log_likelihood_eq theta w f e lims κ z d n fm hf he hl hm]
    congr 1
    unfold limit_sum_term
    by_cases hemp : ((zipObs f fm e lims).filter (fun p => p.limit)).isEmpty
    · rw [if_pos hemp]
      rw [List.isEmpty_iff] at hemp
      rw [hemp]
      simp
    · rw [if_neg hemp]
  · intro prob hprob
    rw [hprob]
    unfold limit_prob_term
    rw [if_neg (lt_irrefl 0)]

/-- Witness for C5 on the demonstration input with a single upper limit. -/
theorem log_likelihood_upper_limit_contribution_witness :
    log_likelihood [0, 100] [10] [1] [1] [true] [1] 0 1 1 =
      some (((detection_term (zipObs [1] [flux_demo] [1] [true]) : ℝ) : EReal) +
        (((zipObs [1] [flux_demo] [1] [true]).filter (fun p => p.limit)).map
          (fun p => limit_prob_term (std_normal_cdf ((p.model - p.flux) / p.err)))).sum) ∧
    limit_prob_term 0 = ⊥ :=
  ⟨(log_likelihood_upper_limit_contribution [0, 100] [10] [1] [1] [true] [1]
      0 1 1 [flux_demo] rfl rfl rfl model_flux_demo).1,
   (log_likelihood_upper_limit_contribution [0, 100] [10] [1] [1] [true] [1]
      0 1 1 [flux_demo] rfl rfl rfl model_flux_demo).2 0 rfl⟩

/-- C6.  With zero upper limits the log-likelihood equals the pure Gaussian
log-likelihood over the detections; with zero detections it equals the pure
upper-limit contribution; the sum over the empty group contributes exactly
zero in either degenerate case. -/
theorem log_likelihood_degenerate_groups (theta : List ℝ)
    (w f e : List ℝ) (lims : List Bool) (κ : List ℝ) (z d : ℝ) (n : ℕ)
    (fm : List ℝ)
    (hf : f.length = w.length) (he : e.length = w.length)
    (hl : lims.length = w.length)
    (hm : model_flux theta w κ z d n = some fm) :
    ((∀ b ∈ lims, b = false) →
      log_likelihood theta w f e lims κ z d n =
        some ((gaussian_log_like (zipObs f fm e lims) : ℝ) : EReal)) ∧
    ((∀ b ∈ lims, b = true) →
      log_likelihood theta w f e lims κ z d n =
        some (upper_limit_log_like (zipObs f fm e lims))) := by
  constructor
  · intro hall
    rw [log_likelihood_eq theta w f e lims κ z d n fm hf he hl hm]
    have hfilt1 : (zipObs f fm e lims).filter (fun p => ! p.limit) =
        zipObs f fm e lims :=
      List.filter_eq_self.mpr (fun p hp => by
        rw [hall p.limit (zipObs_limit_mem f fm e lims p hp)]
        rfl)
    have hfilt2 : (zipObs f fm e lims).filter (fun p => p.limit) = [] :=
      List.filter_eq_nil_iff.mpr (fun p hp => by
        rw [hall p.limit (zipObs_limit_mem f fm e lims p hp)]
        simp)
    unfold detection_term limit_sum_term
    rw [hfilt1, hfilt2]
    simp only [List.isEmpty_nil, if_true, add_zero]
    congr 1
    by_cases hemp : (zipObs f fm e lims).isEmpty
    · rw [if_pos hemp]
      rw [List.isEmpty_iff] at hemp
      rw [hemp]
      unfold gaussian_log_like
      simp
    · rw [if_neg hemp]
      unfold gaussian_log_like
      have hpoint : (fun p : ObsPt => 1 / p.err ^ 2 * (p.flux - p.model) ^ 2) =
          fun p : ObsPt => ((p.flux - p.model) / p.err) ^ 2 := by
        funext p
        rw [div_pow]
        ring
      rw [hpoint]
  · intro hall
    rw [log_likelihood_eq theta w f e lims κ z d n fm hf he hl hm]
    have hfilt1 : (zipObs f fm e lims).filter (fun p => ! p.limit) = [] :=
      List.filter_eq_nil_iff.mpr (fun p hp => by
        rw [hall p.limit (zipObs_limit_mem f fm e lims p hp)]
        simp)
    have hfilt2 : (zipObs f fm e lims).filter (fun p => p.limit) =
        zipObs f fm e lims :=
      List.filter_eq_self.mpr (fun p hp => by
        rw [hall p.limit (zipObs_limit_mem f fm e lims p hp)])
    unfold detection_term limit_sum_term
    rw [hfilt1, hfilt2]
    simp only [List.isEmpty_nil, if_true, EReal.coe_zero, zero_add]
    by_cases hemp : (zipObs f fm e lims).isEmpty
    · rw [if_pos hemp]
      rw [List.isEmpty_iff] at hemp
      rw [hemp]
      unfold upper_limit_log_like
      simp
    · rw [if_neg hemp]
      rfl

/-- Witness for C6 on the demonstration input with a single detection. -/
theorem log_likelihood_degenerate_groups_witness :
    log_likelihood [0, 100] [10] [1] [1] [false] [1] 0 1 1 =
      some ((gaussian_log_like (zipObs [1] [flux_demo] [1] [false]) : ℝ) : EReal) :=
  (log_likelihood_degenerate_groups [0, 100] [10] [1] [1] [false] [1] 0 1 1
    [flux_demo] rfl rfl rfl model_flux_demo).1 (by simp)

/-- C7.  The posterior evaluation adds the log-prior and the log-likelihood
when the prior is finite, and returns -inf without touching the likelihood
when the prior is non-finite: on that branch the result is some bottom no
matter what the likelihood evaluation would do (it could even raise). -/
theorem log_probability_short_circuit (theta : List ℝ)
    (w f e : List ℝ) (lims : List Bool) (κ : List ℝ) (z d : ℝ) (n : ℕ)
    (lp : EReal) (hp : log_prior theta n = some lp) :
    (lp ≠ ⊥ ∧ lp ≠ ⊤ →
      log_probability theta w f e lims κ z d n =
        (log_likelihood theta w f e lims κ z d n).map (fun ll => lp + ll)) ∧
    (lp = ⊥ → log_probability theta w f e lims κ z d n = some ⊥) := by
  constructor
  · intro hfin
    have hcond : ¬ (lp = ⊥ ∨ lp = ⊤) := by
      intro hor
      rcases hor with hb | ht
      · exact hfin.1 hb
      · exact hfin.2 ht
    unfold log_probability
    rw [hp]
    show (if lp = ⊥ ∨ lp = ⊤ then some ⊥
        else (log_likelihood theta w f e lims κ z d n).map (fun ll => lp + ll)) =
      (log_likelihood theta w f e lims κ z d n).map (fun ll => lp + ll)
    rw [if_neg hcond]
  · intro hb
    unfold log_probability
    rw [hp]
    show (if lp = ⊥ ∨ lp = ⊤ then some ⊥
        else (log_likelihood theta w f e lims κ z d n).map (fun ll => lp + ll)) = some ⊥
    rw [if_pos (Or.inl hb)]

/-- Witness for C7 on the demonstration input, with the in-prior parameter
vector (0, 100). -/
theorem log_probability_short_circuit_witness :
    log_probability [0, 100] [10] [1] [1] [false] [1] 0 1 1 =
      (log_likelihood [0, 100] [10] [1] [1] [false] [1] 0 1 1).map
        (fun ll => (0 : EReal) + ll) :=
  (log_probability_short_circuit [0, 100] [10] [1] [1] [false] [1] 0 1 1
    0 log_prior_demo).1 ⟨EReal.zero_ne_bot, EReal.zero_ne_top⟩

/-- C8.  For every parameter vector and shared wavelength grid, opacity grid,
redshift and distance, the two-component model flux is exactly the elementwise
sum of the two independent one-component model fluxes, with no cross term;
failure cases coincide as well. -/
theorem model_flux_two_component_sum (lmc tc lmh th : ℝ) (w κ : List ℝ)
    (z d : ℝ) :
    model_flux [lmc, tc, lmh, th] w κ z d 2 =
      Option.map₂ (List.zipWith (fun a b => a + b))
        (model_flux [lmc, tc] w κ z d 1) (model_flux [lmh, th] w κ z d 1) := by
  have e2 : model_flux [lmc, tc, lmh, th] w κ z d 2 = (do
      let flux1 ← calc_model_flux w ((10 : ℝ) ^ lmc) tc z d κ
      let flux2 ← calc_model_flux w ((10 : ℝ) ^ lmh) th z d κ
      pure (List.zipWith (fun a b => a + b) flux1 flux2)) := rfl
  have e1a : model_flux [lmc, tc] w κ z d 1 =
      calc_model_flux w ((10 : ℝ) ^ lmc) tc z d κ := rfl
  have e1b : model_flux [lmh, th] w κ z d 1 =
      calc_model_flux w ((10 : ℝ) ^ lmh) th z d κ := rfl
  rw [e2, e1a, e1b]
  cases calc_model_flux w ((10 : ℝ) ^ lmc) tc z d κ <;>
    cases calc_model_flux w ((10 : ℝ) ^ lmh) th z d κ <;> rfl

/-! ### Helper lemmas for the initial-position assembly -/

/-- The prior of the order-violating draw (0, 300, 0, 100): all box bounds
hold but the hot temperature 100 is below the cold temperature 300. -/
lemma log_prior_bad_order : log_prior [0, 300, 0, 100] 2 = some ⊥ := by
  have e : log_prior [(0 : ℝ), 300, 0, 100] 2 =
      if ((-6 : ℝ) < 0 ∧ (0 : ℝ) < 1) ∧ ((20 : ℝ) < 300 ∧ (300 : ℝ) < 2000) ∧
          ((-8 : ℝ) < 0 ∧ (0 : ℝ) < 1) ∧ ((20 : ℝ) < 100 ∧ (100 : ℝ) < 3000) then
        (if (100 : ℝ) > 300 then some 0 else some ⊥)
      else some ⊥ := rfl
  rw [e, if_pos (by norm_num), if_neg (by norm_num)]

/-- The prior of the valid draw (0, 100, 0, 300). -/
lemma log_prior_good_order : log_prior [0, 100, 0, 300] 2 = some 0 := by
  have e : log_prior [(0 : ℝ), 100, 0, 300] 2 =
      if ((-6 : ℝ) < 0 ∧ (0 : ℝ) < 1) ∧ ((20 : ℝ) < 100 ∧ (100 : ℝ) < 2000) ∧
          ((-8 : ℝ) < 0 ∧ (0 : ℝ) < 1) ∧ ((20 : ℝ) < 300 ∧ (300 : ℝ) < 3000) then
        (if (300 : ℝ) > 100 then some 0 else some ⊥)
      else some ⊥ := rfl
  rw [e, if_pos (by norm_num), if_pos (by norm_num)]

/-- The order-violating draw is masked out by np.isfinite(log_prior). -/
lemma prior_finite_b_bad : prior_finite_b [0, 300, 0, 100] 2 = false := by
  unfold prior_finite_b
  rw [log_prior_bad_order]
  show decide ((⊥ : EReal) ≠ ⊥ ∧ (⊥ : EReal) ≠ ⊤) = false
  exact decide_eq_false (fun h => h.1 rfl)

/-- The valid draw passes the np.isfinite(log_prior) mask. -/
lemma prior_finite_b_good : prior_finite_b [0, 100, 0, 300] 2 = true := by
  unfold prior_finite_b
  rw [log_prior_good_order]
  show decide ((0 : EReal) ≠ ⊥ ∧ (0 : EReal) ≠ ⊤) = true
  exact decide_eq_true ⟨EReal.zero_ne_bot, EReal.zero_ne_top⟩

/-- One unfolding step of the assembly loop while the output is short. -/
lemma init_loop_step (pos_in : List (List ℝ)) (n nw fuel : ℕ)
    (pos_out : List (List ℝ)) (hlt : pos_out.length < nw)
    (hany : pos_in.any (fun theta => (log_prior theta n).isNone) = false) :
    init_loop pos_in n nw (fuel + 1) pos_out =
      init_loop pos_in n nw fuel
        (pos_out ++ pos_in.filter (fun theta => prior_finite_b theta n)) := by
  rw [init_loop, if_pos hlt, hany]
  rfl

/-- The assembly loop stops once the output is long enough. -/
lemma init_loop_done (pos_in : List (List ℝ)) (n nw fuel : ℕ)
    (pos_out : List (List ℝ)) (hge : ¬ pos_out.length < nw) :
    init_loop pos_in n nw (fuel + 1) pos_out = some pos_out := by
  rw [init_loop, if_neg hge]

/-- C4.  The claim states that every initial position passed to the sampler
has finite log-prior.  With n_walkers = 2 and the drawn batch consisting of
the order-violating sample (0, 300, 0, 100) followed by the valid sample
(0, 100, 0, 300), the assembly terminates with exactly two positions, but the
assembled length equals n_walkers, so the unfiltered first draw is kept: the
returned ensemble contains the position (0, 300, 0, 100) whose log-prior is
-inf. -/
theorem assemble_initial_positions_bug :
    assemble_initial_positions [[0, 300, 0, 100], [0, 100, 0, 300]] 2 2 =
      some [[0, 300, 0, 100], [0, 100, 0, 300]] ∧
    log_prior [0, 300, 0, 100] 2 = some ⊥ := by
  refine ⟨?_, log_prior_bad_order⟩
  have hany : ([[0, 300, 0, 100], [0, 100, 0, 300]] : List (List ℝ)).any
      (fun theta => (log_prior theta 2).isNone) = false := by
    simp [List.any_cons, log_prior_bad_order, log_prior_good_order]
  have hfilt : ([[0, 300, 0, 100], [0, 100, 0, 300]] : List (List ℝ)).filter
      (fun theta => prior_finite_b theta 2) = [[0, 100, 0, 300]] := by
    simp [List.filter_cons, prior_finite_b_bad, prior_finite_b_good]
  have e1 : init_loop [[0, 300, 0, 100], [0, 100, 0, 300]] 2 2 3
      [[0, 300, 0, 100]] =
      init_loop [[0, 300, 0, 100], [0, 100, 0, 300]] 2 2 2
        ([[0, 300, 0, 100]] ++
          ([[0, 300, 0, 100], [0, 100, 0, 300]] : List (List ℝ)).filter
            (fun theta => prior_finite_b theta 2)) :=
    init_loop_step _ 2 2 2 _ (by norm_num) hany
  have e2 : init_loop [[0, 300, 0, 100], [0, 100, 0, 300]] 2 2 2
      [[0, 300, 0, 100], [0, 100, 0, 300]] =
      some [[0, 300, 0, 100], [0, 100, 0, 300]] :=
    init_loop_done _ 2 2 1 _ (by norm_num)
  unfold assemble_initial_positions
  have htake : ([[0, 300, 0, 100], [0, 100, 0, 300]] : List (List ℝ)).take 1 =
      [[0, 300, 0, 100]] := rfl
  rw [htake, e1, hfilt]
  have happ : ([[0, 300, 0, 100]] : List (List ℝ)) ++ [[0, 100, 0, 300]] =
      [[0, 300, 0, 100], [0, 100, 0, 300]] := rfl
  rw [happ, e2]
  simp

/-! ### Helper lemmas for the sigma-clipping repair evaluation -/

/-- The square root of four. -/
lemma sqrt_four : Real.sqrt 4 = 2 := by
  rw [show (4 : ℝ) = 2 ^ 2 by norm_num, Real.sqrt_sq (by norm_num : (0 : ℝ) ≤ 2)]

/-- Sorting the demonstration column. -/
lemma np_sort_demo : np_sort [0, 4] = [0, 4] := by
  unfold np_sort
  show insert_sorted 0 (insert_sorted 4 ([] : List ℝ)) = [0, 4]
  rw [insert_sorted]
  show insert_sorted 0 [(4 : ℝ)] = [0, 4]
  rw [insert_sorted, if_pos (by norm_num : (0 : ℝ) ≤ 4)]

/-- Median of the demonstration column. -/
lemma np_median_demo : np_median [0, 4] = 2 := by
  unfold np_median
  rw [np_sort_demo]
  norm_num

/-- Mean of the demonstration column. -/
lemma np_mean_demo : np_mean [0, 4] = 2 := by
  unfold np_mean
  norm_num

/-- Standard deviation of the demonstration column. -/
lemma np_std_demo : np_std [0, 4] = 2 := by
  unfold np_std
  rw [np_mean_demo]
  rw [show (([0, 4] : List ℝ).map (fun x => (x - 2) ^ 2)).sum /
        (([0, 4] : List ℝ).length : ℝ) = 4 by norm_num]
  exact sqrt_four

/-- Per-dimension medians of the demonstration ensemble. -/
lemma clip_medians_demo : clip_medians [[0], [4]] = [2] := by
  unfold clip_medians
  show [np_median (clip_column [[0], [4]] 0)] = [2]
  rw [show clip_column [[0], [4]] 0 = [0, 4] from rfl, np_median_demo]

/-- Per-dimension floored standard deviations of the demonstration
ensemble. -/
lemma clip_stds_demo : clip_stds [[0], [4]] = [2] := by
  unfold clip_stds
  show [max (np_std (clip_column [[0], [4]] 0)) 1e-10] = [2]
  rw [show clip_column [[0], [4]] 0 = [0, 4] from rfl, np_std_demo]
  rw [max_eq_left (by norm_num : (1e-10 : ℝ) ≤ 2)]

/-- The first demonstration walker is exactly one sigma from the median, so
with sigma_clip = 1 the strict comparison flags it as an outlier. -/
lemma walker_within_clip_demo0 : walker_within_clip [0] [2] [2] 1 = false := by
  unfold walker_within_clip
  show (decide (|([0] : List ℝ).getD 0 0 - ([2] : List ℝ).getD 0 0| <
    1 * ([2] : List ℝ).getD 0 0) && true) = false
  rw [Bool.and_true]
  apply decide_eq_false
  rw [show (([0] : List ℝ).getD 0 0) = 0 from rfl,
    show (([2] : List ℝ).getD 0 0) = 2 from rfl]
  rw [show |(0 : ℝ) - 2| = 2 by rw [abs_sub_comm]; norm_num [abs_two]]
  norm_num

/-- The second demonstration walker is likewise flagged as an outlier. -/
lemma walker_within_clip_demo1 : walker_within_clip [4] [2] [2] 1 = false := by
  unfold walker_within_clip
  show (decide (|([4] : List ℝ).getD 0 0 - ([2] : List ℝ).getD 0 0| <
    1 * ([2] : List ℝ).getD 0 0) && true) = false
  rw [Bool.and_true]
  apply decide_eq_false
  rw [show (([4] : List ℝ).getD 0 0) = 4 from rfl,
    show (([2] : List ℝ).getD 0 0) = 2 from rfl]
  rw [show |(4 : ℝ) - 2| = 2 by norm_num [abs_two]]
  norm_num

/-- In the demonstration ensemble every walker is flagged as an outlier. -/
lemma clip_valid_indices_demo : clip_valid_indices [[0], [4]] 1 = [] := by
  unfold clip_valid_indices
  simp only [clip_medians_demo, clip_stds_demo]
  show ([0, 1] : List ℕ).filter
      (fun i => walker_within_clip (([[0], [4]] : List (List ℝ)).getD i []) [2] [2] 1) = []
  simp [List.filter_cons, walker_within_clip_demo0, walker_within_clip_demo1]

/-- C10.  When every walker is simultaneously flagged as an outlier, so the
list of surviving valid indices is empty, the repair step of
mcmc_with_sigma_clipping raises (np.random.choice of an empty index array
fails) instead of skipping repair or carrying the ensemble forward. -/
theorem sigma_clip_step_all_outliers (last_pos : List (List ℝ))
    (sigma_clip : ℝ) (pick : ℕ → ℕ) (noise : ℕ → ℕ → ℝ)
    (hne : last_pos ≠ [])
    (hempty : clip_valid_indices last_pos sigma_clip = []) :
    sigma_clip_step last_pos sigma_clip pick noise = none := by
  have hpos : 0 < last_pos.length := List.length_pos.mpr hne
  unfold sigma_clip_step
  rw [hempty]
  rw [if_pos (by simpa using hpos)]
  rfl

/-- Witness for C10: the one-dimensional two-walker ensemble [[0], [4]] with
sigma_clip = 1 flags both walkers, and the repair step raises. -/
theorem sigma_clip_step_all_outliers_witness :
    sigma_clip_step [[0], [4]] 1 (fun _ => 0) (fun _ _ => 0) = none :=
  sigma_clip_step_all_outliers [[0], [4]] 1 (fun _ => 0) (fun _ _ => 0)
    (List.cons_ne_nil _ _) clip_valid_indices_demo

/-- C9.  The summary of fit_dust_model refines the specification: with
repeats > 1 only the final run cycle (the last n_steps steps) is retained,
otherwise the first burn_in fraction of the single run is discarded (the last
floor(n_steps * (1 - burn_in)) steps are kept); each parameter and the total
dust mass, the linear-space sum of 10 ^ log_mass across components, is
reported as (p50, p84.13 - p50, p50 - p15.87) of the retained flattened
samples.  The hypotheses rule out a retained step count of zero, where the
numpy slice a[-0:] degenerates to the whole chain. -/
theorem fit_summary_refines_spec (chain : List (List (List ℝ)))
    (repeats n_steps : ℕ) (burn_in : ℝ) (n_components : ℕ)
    (h1 : 1 < repeats → 1 ≤ n_steps)
    (h2 : ¬ 1 < repeats → 1 ≤ (⌊(n_steps : ℝ) * (1 - burn_in)⌋).toNat) :
    fit_summary chain repeats n_steps burn_in n_components =
      spec_summary chain repeats n_steps burn_in n_components := by
  have hret : samples_crop chain repeats n_steps burn_in =
      spec_retained chain repeats n_steps burn_in := by
    unfold samples_crop spec_retained
    by_cases hr : 1 < repeats
    · rw [if_pos hr, if_pos hr]
      have hfun : python_tail_slice n_steps =
          (fun w : List (List ℝ) => w.drop (w.length - n_steps)) := by
        funext w
        unfold python_tail_slice
        rw [if_neg (by omega : ¬ n_steps = 0)]
      rw [hfun]
    · rw [if_neg hr, if_neg hr]
      have hk := h2 hr
      have hfun : python_tail_slice (⌊(n_steps : ℝ) * (1 - burn_in)⌋).toNat =
          (fun w : List (List ℝ) =>
            w.drop (w.length - (⌊(n_steps : ℝ) * (1 - burn_in)⌋).toNat)) := by
        funext w
        unfold python_tail_slice
        rw [if_neg (by omega : ¬ (⌊(n_steps : ℝ) * (1 - burn_in)⌋).toNat = 0)]
      rw [hfun]
  have htrip : mcmc_triple = spec_report := funext (fun xs => rfl)
  unfold fit_summary fit_results spec_summary
  rw [hret, htrip]

/-- Witness for C9 on a one-walker chain of two steps with repeats = 2. -/
theorem fit_summary_refines_spec_witness :
    fit_summary [[[0, 100], [1, 200]]] 2 1 0.75 1 =
      spec_summary [[[0, 100], [1, 200]]] 2 1 0.75 1 :=
  fit_summary_refines_spec [[[0, 100], [1, 200]]] 2 1 0.75 1
    (fun _ => le_refl 1) (fun h => absurd (by norm_num) h)

end Dustysn
